import Mathlib

/-!
Verification development for the battle-royale DynamoDB resource-usage scripts
(src/application/join_game_with_opengamesindex.py and
src/application/query_user_games.py).

The Python values handled by ResourceTracker.add_consumption are embedded as a
JSON-like inductive type PyVal.  Python attribute errors and type errors that
the source can raise (calling .get or .items on a non-mapping, adding a
non-number to a numeric accumulator) are modelled with an Except monad: an
Except.error result means the Python call raises and the partially mutated
tracker is abandoned (no claim inspects the post-raise state).  Capacity unit
figures are embedded as integers: the source only adds figures and compares
them to zero, so every statement below is about that additive structure and
holds verbatim for fractional figures as well; all additions performed by the
source are replayed in the same order in both compared executions.
-/

/-- Embedding of the Python values that can appear in a ConsumedCapacity
response: None, numbers, strings, dicts (insertion-ordered association lists
with string keys, as produced by JSON decoding) and lists. -/
inductive PyVal where
  | pynull : PyVal
  | num (q : ℤ) : PyVal
  | str (s : String) : PyVal
  | dict (entries : List (String × PyVal)) : PyVal
  | list (elems : List PyVal) : PyVal

/-- Python exceptions escaping a call are modelled as Except errors carrying
the exception class name. -/
abbrev PyM (α : Type) := Except String α

/-- isinstance(v, dict). -/
def PyVal.isDict : PyVal → Bool
  | .dict _ => true
  | _ => false

/-- isinstance(v, list). -/
def PyVal.isList : PyVal → Bool
  | .list _ => true
  | _ => false

/-- Python d.get(k, default): returns the value stored at k, the default when
the key is missing, and raises AttributeError when the receiver is not a
mapping. -/
def pyGetD (v : PyVal) (k : String) (default : PyVal) : PyM PyVal :=
  match v with
  | .dict es => pure ((List.lookup k es).getD default)
  | _ => throw "AttributeError"

/-- Python d[k] on a mapping (all source sites guard the key with an `in`
test first, so a missing key raises KeyError only in unreachable paths). -/
def pyIndex (v : PyVal) (k : String) : PyM PyVal :=
  match v with
  | .dict es =>
    match List.lookup k es with
    | some x => pure x
    | none => throw "KeyError"
  | _ => throw "TypeError"

/-- Python k in d for a mapping receiver. -/
def pyHasKey (v : PyVal) (k : String) : Bool :=
  match v with
  | .dict es => (List.lookup k es).isSome
  | _ => false

/-- Python d.items(): raises AttributeError on a non-mapping. -/
def pyItems (v : PyVal) : PyM (List (String × PyVal)) :=
  match v with
  | .dict es => pure es
  | _ => throw "AttributeError"

/-- Python x == 0 for an arbitrary value (numbers compare numerically, any
non-number compares unequal to 0). -/
def pyIsZero : PyVal → Bool
  | .num q => q = 0
  | _ => false

/-- Python truthiness. -/
def pyTruthy : PyVal → Bool
  | .pynull => false
  | .num q => q ≠ 0
  | .str s => s ≠ ""
  | .dict es => !es.isEmpty
  | .list l => !l.isEmpty

/-- Python numeric_accumulator += v: succeeds only for numbers, raising
TypeError otherwise. -/
def pyAsNum (v : PyVal) : PyM ℤ :=
  match v with
  | .num q => pure q
  | _ => throw "TypeError"

/-- One rcu/wcu pair, mirroring the Python dicts of shape
\x7b'rcu': 0, 'wcu': 0\x7d used for table_consumption and each
gsi_consumption entry. -/
structure RW where
  rcu : ℤ
  wcu : ℤ
deriving DecidableEq, Repr

/-- The numeric accumulators of ResourceTracker (total_rcu, total_wcu,
table_consumption, gsi_consumption).  They are grouped apart from the
operation history because the normalization code of add_consumption reads and
writes only these fields; the operations append happens once at the end of
the call (line 217 / line 192). -/
structure ConsumptionAcc where
  total_rcu : ℤ
  total_wcu : ℤ
  table_consumption : RW
  gsi_consumption : List (String × RW)
deriving DecidableEq, Repr

/-- ResourceTracker state (both scripts define the identical class; the
wall-clock start_time field is omitted, no claim concerns latency). -/
structure ResourceTracker where
  acc : ConsumptionAcc
  operations : List String
  status : String
  error : Option String
deriving DecidableEq, Repr

/-- ResourceTracker.reset, lines 64-73 of the join script and 51-60 of the
query script. -/
def reset_tracker : ResourceTracker :=
  { acc := { total_rcu := 0, total_wcu := 0,
             table_consumption := { rcu := 0, wcu := 0 },
             gsi_consumption := [] },
    operations := [], status := "success", error := none }

/-- self.operations.append(operation). -/
def appendOp (t : ResourceTracker) (op : String) : ResourceTracker :=
  { t with operations := t.operations ++ [op] }

/-- ResourceTracker.set_error, join script lines 219-222 and query script
lines 194-197. -/
def set_error (t : ResourceTracker) (msg : String) : ResourceTracker :=
  { t with status := "failed", error := some msg }

/-- Python s.startswith(p): a prefix test, embedded over the character
lists underlying the strings. -/
def py_startswith (s p : String) : Bool :=
  p.data.isPrefixOf s.data

/-- Read/write classification by operation-name prefix as written in
join_game_with_opengamesindex.py (lines 97, 117, 135, 160, 181, 199, 211):
get_, query_ and scan_ count as reads. -/
def is_read_op_join (op : String) : Bool :=
  py_startswith op "get_" || py_startswith op "query_" || py_startswith op "scan_"

/-- Read/write classification by operation-name prefix as written in
query_user_games.py (lines 84, 104, 122, 142, 162, 180): only get_ and
query_ count as reads; scan_ is absent. -/
def is_read_op_query (op : String) : Bool :=
  py_startswith op "get_" || py_startswith op "query_"

/-- Base-table figures of one report: join script lines 91-104 (identically
query script lines 78-91).  Returns the pair (table_rcu, table_wcu) that the
source adds to table_consumption, after the CapacityUnits fallback guarded by
table_rcu == 0 and table_wcu == 0 and 'Table' in report.  The rs flag is the
operation-name read classification of the calling script. -/
def tableFigures (rs : Bool) (cc : PyVal) : PyM (ℤ × ℤ) := do
  let t1 ← pyGetD cc "Table" (.dict [])
  let r0 ← pyGetD t1 "ReadCapacityUnits" (.num 0)
  let t2 ← pyGetD cc "Table" (.dict [])
  let w0 ← pyGetD t2 "WriteCapacityUnits" (.num 0)
  let rw ←
    if pyIsZero r0 && pyIsZero w0 && pyHasKey cc "Table" then do
      let t3 ← pyIndex cc "Table"
      let cap ← pyGetD t3 "CapacityUnits" (.num 0)
      pure (if rs then (cap, w0) else (r0, cap))
    else
      pure (r0, w0)
  let a ← pyAsNum rw.1
  let b ← pyAsNum rw.2
  pure (a, b)

/-- Processing of one secondary-index entry inside the loop of lines 110-129
of the join script (97-116 of the query script): raw read/write figures with
the CapacityUnits fallback when both are zero, appended to the figures list
and added to the running sums. -/
def gsiEntryStep (rs : Bool) (acc : List (String × ℤ × ℤ) × ℤ × ℤ)
    (e : String × PyVal) : PyM (List (String × ℤ × ℤ) × ℤ × ℤ) := do
  let r0 ← pyGetD e.2 "ReadCapacityUnits" (.num 0)
  let w0 ← pyGetD e.2 "WriteCapacityUnits" (.num 0)
  let rw ←
    if pyIsZero r0 && pyIsZero w0 then do
      let cap ← pyGetD e.2 "CapacityUnits" (.num 0)
      pure (if rs then (cap, w0) else (r0, cap))
    else
      pure (r0, w0)
  let a ← pyAsNum rw.1
  let b ← pyAsNum rw.2
  pure (acc.1 ++ [(e.1, a, b)], acc.2.1 + a, acc.2.2 + b)

/-- Secondary-index figures of one report: join script lines 107-129
(identically query script lines 94-116).  Returns the list of per-index
(name, rcu, wcu) contributions in iteration order together with the running
gsi_rcu_total and gsi_wcu_total sums. -/
def gsiFigures (rs : Bool) (cc : PyVal) :
    PyM (List (String × ℤ × ℤ) × ℤ × ℤ) := do
  if pyHasKey cc "GlobalSecondaryIndexes" then do
    let g ← pyIndex cc "GlobalSecondaryIndexes"
    let es ← pyItems g
    es.foldlM (gsiEntryStep rs) ([], (0 : ℤ), (0 : ℤ))
  else
    pure ([], 0, 0)

/-- Overall totals of one single (non-list) report: join script lines 131-142
(identically query script lines 118-129, and query script list items, lines
176-190): the top-level CapacityUnits figure classified by the operation name
when present, the sum of table and index components otherwise. -/
def totalsSingle (rs : Bool) (cc : PyVal) (a b gr gw : ℤ) : PyM (ℤ × ℤ) := do
  if pyHasKey cc "CapacityUnits" then do
    let capv ← pyGetD cc "CapacityUnits" (.num 0)
    let c ← pyAsNum capv
    pure (if rs then (c, 0) else (0, c))
  else
    pure (a + gr, b + gw)

/-- Per-index step of the second secondary-index loop of the join script,
lines 209-212: for a read-shaped operation the raw read figure, or when that
is falsy the raw undifferentiated figure, is added to the item read total and
nothing to the item write total; symmetrically for a write-shaped operation.
The Python source is item_rcu += x or y if read_shaped else 0, which parses
as item_rcu += ((x or y) if read_shaped else 0). -/
def joinItemGsiStep (rs : Bool) (iw : ℤ × ℤ) (e : String × PyVal) :
    PyM (ℤ × ℤ) := do
  let dr ←
    if rs then do
      let x ← pyGetD e.2 "ReadCapacityUnits" (.num 0)
      let v ← if pyTruthy x then pure x
              else pyGetD e.2 "CapacityUnits" (.num 0)
      pyAsNum v
    else
      pure 0
  let ir1 := iw.1 + dr
  let dw ←
    if !rs then do
      let y ← pyGetD e.2 "WriteCapacityUnits" (.num 0)
      let v ← if pyTruthy y then pure y
              else pyGetD e.2 "CapacityUnits" (.num 0)
      pyAsNum v
    else
      pure 0
  pure (ir1, iw.2 + dw)

/-- Overall totals of one item of a list-shaped report in the join script,
lines 195-215.  When no top-level CapacityUnits figure is present the item
total starts from the base-table figures and then, for each secondary index,
folds joinItemGsiStep over the index entries. -/
def totalsJoinListItem (rs : Bool) (item : PyVal) (a b : ℤ) : PyM (ℤ × ℤ) := do
  if pyHasKey item "CapacityUnits" then do
    let capv ← pyGetD item "CapacityUnits" (.num 0)
    let c ← pyAsNum capv
    pure (if rs then (c, 0) else (0, c))
  else
    if pyHasKey item "GlobalSecondaryIndexes" then do
      let g ← pyIndex item "GlobalSecondaryIndexes"
      let es ← pyItems g
      es.foldlM (joinItemGsiStep rs) (a, b)
    else
      pure (a, b)

/-- The contribution of one report to the four accumulator groups, computed
purely from the report and the operation-name classification (the source
computes these local figures without reading any tracker field, so they are
state independent). -/
structure Contrib where
  tr : ℤ
  tw : ℤ
  gsis : List (String × ℤ × ℤ)
  totr : ℤ
  totw : ℤ

/-- Normalization of one single (dict-shaped) report in either script: join
script lines 88-142, query script lines 75-129 (the two bodies are textually
identical up to the read-prefix set, abstracted as rs), and one list item of
the query script, lines 133-190. -/
def normSingle (rs : Bool) (cc : PyVal) : PyM Contrib := do
  let ab ← tableFigures rs cc
  let g ← gsiFigures rs cc
  let xy ← totalsSingle rs cc ab.1 ab.2 g.2.1 g.2.2
  pure { tr := ab.1, tw := ab.2, gsis := g.1, totr := xy.1, totw := xy.2 }

/-- Normalization of one list item in the join script, lines 151-215: table
and index accumulators as in the single branch, overall totals by the
divergent rule of totalsJoinListItem (the per-item gsi running sums of lines
192-193 are accumulated by the source but never read afterwards). -/
def normJoinListItem (rs : Bool) (item : PyVal) : PyM Contrib := do
  let ab ← tableFigures rs item
  let g ← gsiFigures rs item
  let xy ← totalsJoinListItem rs item ab.1 ab.2
  pure { tr := ab.1, tw := ab.2, gsis := g.1, totr := xy.1, totw := xy.2 }

/-- The source statement pair
if gsi_name not in self.gsi_consumption: insert \x7b'rcu': 0, 'wcu': 0\x7d
followed by the two += updates (join lines 122-126, query lines 109-113):
add (a, b) at the key, inserting it at the end first when absent. -/
def gsiInsertAdd (m : List (String × RW)) (name : String) (a b : ℤ) :
    List (String × RW) :=
  if (List.lookup name m).isSome then
    m.map (fun e => if e.1 = name then
      (e.1, { rcu := e.2.rcu + a, wcu := e.2.wcu + b }) else e)
  else
    m ++ [(name, { rcu := 0 + a, wcu := 0 + b })]

/-- Replay of the self.* accumulator mutations performed for one report. -/
def applyContrib (c : Contrib) (a : ConsumptionAcc) : ConsumptionAcc :=
  { total_rcu := a.total_rcu + c.totr,
    total_wcu := a.total_wcu + c.totw,
    table_consumption := { rcu := a.table_consumption.rcu + c.tr,
                           wcu := a.table_consumption.wcu + c.tw },
    gsi_consumption :=
      c.gsis.foldl (fun m e => gsiInsertAdd m e.1 e.2.1 e.2.2)
        a.gsi_consumption }

/-- One iteration of the list branch of the join script, lines 151-215: a
dict item is normalized and folded into the accumulators, any other item is
skipped. -/
def joinListStep (rs : Bool) (a : ConsumptionAcc) (it : PyVal) :
    PyM ConsumptionAcc :=
  if it.isDict then do
    let c ← normJoinListItem rs it
    pure (applyContrib c a)
  else
    pure a

/-- One iteration of the list branch of the query script, lines 133-190: a
dict item is normalized exactly like a single report and folded into the
accumulators, any other item is skipped. -/
def queryListStep (rs : Bool) (a : ConsumptionAcc) (it : PyVal) :
    PyM ConsumptionAcc :=
  if it.isDict then do
    let c ← normSingle rs it
    pure (applyContrib c a)
  else
    pure a

/-- ResourceTracker.add_consumption of join_game_with_opengamesindex.py,
lines 75-217: None records only the name; a dict report is normalized by the
single branch; a list report folds each dict item (non-dict items are
skipped); any other shape records only the name; every non-raising path
appends the operation name once at the end (line 217). -/
def add_consumption_join (op : String) (cc : PyVal) (t : ResourceTracker) :
    PyM ResourceTracker :=
  match cc with
  | .pynull => pure (appendOp t op)
  | .dict es => do
    let c ← normSingle (is_read_op_join op) (.dict es)
    pure (appendOp { t with acc := applyContrib c t.acc } op)
  | .list items => do
    let acc1 ← items.foldlM (joinListStep (is_read_op_join op)) t.acc
    pure (appendOp { t with acc := acc1 } op)
  | _ => pure (appendOp t op)

/-- ResourceTracker.add_consumption of query_user_games.py, lines 62-192:
identical to the join variant except that the read-prefix set omits scan_ and
that each list item is normalized exactly like a single report (lines
133-190 repeat lines 75-129 verbatim). -/
def add_consumption_query (op : String) (cc : PyVal) (t : ResourceTracker) :
    PyM ResourceTracker :=
  match cc with
  | .pynull => pure (appendOp t op)
  | .dict es => do
    let c ← normSingle (is_read_op_query op) (.dict es)
    pure (appendOp { t with acc := applyContrib c t.acc } op)
  | .list items => do
    let acc1 ← items.foldlM (queryListStep (is_read_op_query op)) t.acc
    pure (appendOp { t with acc := acc1 } op)
  | _ => pure (appendOp t op)

/-- MAX_PLAYERS constant, join script line 42. -/
def MAX_PLAYERS : ℕ := 500

/-- The persistent state of one game in the store: its current people count
(the metadata item) and its membership rows in insertion order, one per
enrolled username. -/
structure GameState where
  people : ℕ
  members : List String
deriving DecidableEq, Repr

/-- Modelled from the spec: the multi-statement atomic conditional write
primitive of the store (spec section 6) applied to the two statements of
join_game_for_user, join script lines 344-373.  The per-statement conditions
are transcribed from the source ConditionExpressions: the Put of the
membership row requires attribute_not_exists(SK), i.e. no membership row for
(game, username) exists, and the Update requires people <= MAX_PLAYERS - 1.
The store applies both statements or neither. -/
def transact_join (s : GameState) (username : String) : Bool × GameState :=
  if username ∉ s.members ∧ s.people ≤ MAX_PLAYERS - 1 then
    (true, { people := s.people + 1, members := s.members ++ [username] })
  else
    (false, s)

/-- join_game_for_user, join script lines 316-398, for a candidate whose game
identifier resolves to the modelled game (the identifier extraction of lines
326-338 is not exercised by any claim).  A rejected transaction surfaces as a
TransactionCanceledException, caught at lines 390-393: the call records the
error on the tracker and returns False.  On success the operation name is
recorded (the consumption report of the response, when present, is folded by
add_consumption; the claims about this function concern only the name
recording, so the report-less path of line 385 is modelled). -/
def join_game_for_user (s : GameState) (username : String)
    (t : ResourceTracker) : Bool × GameState × ResourceTracker :=
  match transact_join s username with
  | (true, s1) => (true, s1, appendOp t "join_game_transaction")
  | (false, _) =>
    (false, s,
      set_error t "Transaction error: TransactionCanceledException")

/-- A sequence of join attempts against one game, each applying the full
join_game_for_user path.  Concurrent attempts interleave as some sequence of
atomic transactions at the store, so arbitrary sequences model arbitrary
interleavings. -/
def run_joins (s : GameState) (t : ResourceTracker) (users : List String) :
    GameState × ResourceTracker :=
  users.foldl (fun p u =>
    let r := join_game_for_user p.1 u p.2
    (r.2.1, r.2.2)) (s, t)

/-- The batch partition performed by the loop
for i in range(0, len(keys), 100): batch_keys = keys[i:i+100]
of get_game_details, query script lines 338-339: consecutive slices of at
most 100 keys in input order. -/
def chunks100 {α : Type} (l : List α) : List (List α) :=
  if l.isEmpty then []
  else l.take 100 :: chunks100 (l.drop 100)
termination_by l.length
decreasing_by
  cases l with
  | nil => simp at *
  | cons x xs => simp [List.length_drop]; omega

/-- The operation name recorded for the batch starting at index i = 100 * j,
query script line 354: the loop index i is always 100 * j for the j-th batch,
so i // 100 is the batch ordinal j. -/
def batch_op_name (j : ℕ) : String :=
  "get_game_details_batch_" ++ toString j

/-- The batch loop of get_game_details, query script lines 338-387: one
bulk-read call per batch of at most 100 keys, one batch-indexed operation
name recorded per call, results aggregated in batch order.  The store
response and the per-item detail extraction of lines 359-387 are abstracted
as the oracle fetch mapping a key batch to the details it yields; the model
covers the non-raising path (a raised batch is caught at lines 392-395). -/
def ggdLoop {β : Type} (fetch : List (String × String) → List β)
    (keys : List (String × String)) (j : ℕ) (t : ResourceTracker)
    (acc : List β) : List β × ResourceTracker :=
  if keys.isEmpty then (acc, t)
  else
    ggdLoop fetch (keys.drop 100) (j + 1)
      (appendOp t (batch_op_name j)) (acc ++ fetch (keys.take 100))
termination_by keys.length
decreasing_by
  cases keys with
  | nil => simp at *
  | cons x xs => simp [List.length_drop]; omega

/-- The primary-key pairs built from the game ids, query script lines
329-334: (GAME#id, #METADATA#id) in input order. -/
def game_keys (game_ids : List String) : List (String × String) :=
  game_ids.map (fun gid => ("GAME#" ++ gid, "#METADATA#" ++ gid))

/-- get_game_details, query script lines 312-390: empty input short-circuits
(line 322), otherwise each game id is turned into the primary key pair
(GAME#id, #METADATA#id) (lines 329-334) and the batch loop runs. -/
def get_game_details {β : Type} (fetch : List (String × String) → List β)
    (game_ids : List String) (t : ResourceTracker) :
    List β × ResourceTracker :=
  if game_ids.isEmpty then ([], t)
  else
    ggdLoop fetch (game_keys game_ids) 0 t []

/-- The fields of the emitted usage record that the claims inspect,
join script lines 414-437 (log_resource_usage). -/
structure LogEntry where
  operations : List String
  rcu : ℤ
  wcu : ℤ
  status : String
  table_usage : RW
  gsi_usage : Option (List (String × RW))
  error : Option String
deriving DecidableEq, Repr

/-- log_resource_usage viewed as the record it emits, join script lines
400-440: gsi_usage is included only when the accumulator dict is non-empty
(line 432) and the error field only when the error message is truthy (line
436), i.e. present and non-empty. -/
def log_resource_entry (t : ResourceTracker) : LogEntry :=
  { operations := t.operations,
    rcu := t.acc.total_rcu,
    wcu := t.acc.total_wcu,
    status := t.status,
    table_usage := t.acc.table_consumption,
    gsi_usage := if t.acc.gsi_consumption.isEmpty then none
                 else some t.acc.gsi_consumption,
    error := match t.error with
             | some m => if m = "" then none else some m
             | none => none }

/-- The post-join finalization of main, join script lines 486-494: a
successful join unconditionally restores status success and clears the error
message; a failed join leaves the tracker as is. -/
def main_finalize (success : Bool) (t : ResourceTracker) : ResourceTracker :=
  if success then { t with status := "success", error := none }
  else t

/-- An optional field of a report entry is numeric-or-absent. -/
def numOk (v : Option PyVal) : Bool :=
  match v with
  | none => true
  | some (.num _) => true
  | some _ => false

/-- A base-table or secondary-index entry is structurally well formed when it
is a mapping whose three capacity fields, where present, are numbers. -/
def entryWF (v : PyVal) : Bool :=
  match v with
  | .dict es => numOk (List.lookup "ReadCapacityUnits" es) &&
                numOk (List.lookup "WriteCapacityUnits" es) &&
                numOk (List.lookup "CapacityUnits" es)
  | _ => false

/-- A single report is structurally well formed when its Table entry (if
present) is a well-formed entry, its GlobalSecondaryIndexes entry (if
present) is a mapping of well-formed entries, and its top-level
CapacityUnits field (if present) is a number. -/
def reportWF (v : PyVal) : Bool :=
  match v with
  | .dict es =>
    (match List.lookup "Table" es with
     | none => true
     | some tv => entryWF tv) &&
    (match List.lookup "GlobalSecondaryIndexes" es with
     | none => true
     | some (.dict ges) => ges.all (fun e => entryWF e.2)
     | some _ => false) &&
    numOk (List.lookup "CapacityUnits" es)
  | _ => false

/-- A consumed-capacity value is structurally well formed when it is absent,
a well-formed single report, a list whose mapping items are well-formed
reports (non-mapping items are skipped by the source), or any non-mapping
non-list value (which contributes nothing). -/
def consumedWF (v : PyVal) : Bool :=
  match v with
  | .dict _ => reportWF v
  | .list items => items.all (fun it => !it.isDict || reportWF it)
  | _ => true

/-- Report shape with only a top-level undifferentiated total. -/
def capOnly (q : ℤ) : PyVal :=
  .dict [("CapacityUnits", .num q)]

/-- Report shape whose base-table entry has only an undifferentiated total. -/
def tableCapOnly (q : ℤ) : PyVal :=
  .dict [("Table", capOnly q)]

/-- Report shape with one secondary index carrying only an undifferentiated
total. -/
def gsiCapOnly (name : String) (q : ℤ) : PyVal :=
  .dict [("GlobalSecondaryIndexes", .dict [(name, capOnly q)])]

/-- Base-table entry with separate read/write figures. -/
def tableRW (a b : ℤ) : PyVal :=
  .dict [("ReadCapacityUnits", .num a), ("WriteCapacityUnits", .num b)]

/-- Secondary-index mapping built from (name, read, write) triples. -/
def gsiMap (gs : List (String × ℤ × ℤ)) : PyVal :=
  .dict (gs.map (fun e => (e.1, tableRW e.2.1 e.2.2)))

/-- Report with a base-table entry, a secondary-index mapping and no
top-level total. -/
def reportNoTotal (a b : ℤ) (gs : List (String × ℤ × ℤ)) : PyVal :=
  .dict [("Table", tableRW a b), ("GlobalSecondaryIndexes", gsiMap gs)]

/-- Report with a base-table entry, a secondary-index mapping and a
top-level undifferentiated total. -/
def reportWithTotal (a b : ℤ) (gs : List (String × ℤ × ℤ)) (c : ℤ) : PyVal :=
  .dict [("Table", tableRW a b), ("GlobalSecondaryIndexes", gsiMap gs),
         ("CapacityUnits", .num c)]

/-- The accumulator contribution of one non-list report: a dict report
contributes its normalized figures, any other single report contributes
nothing (the source records only the name for those). -/
def contribOf (rs : Bool) (v : PyVal) : PyM Contrib :=
  match v with
  | .dict es => normSingle rs (.dict es)
  | _ => pure { tr := 0, tw := 0, gsis := [], totr := 0, totw := 0 }

/-- A Python call completed without raising. -/
def pyOk {α : Type} (e : PyM α) : Bool :=
  match e with
  | .ok _ => true
  | .error _ => false

/-- Report carrying separate read/write figures for one secondary index and
nothing else; its single-branch normalization puts 2 read and 3 write units
in the totals, while the list branch of the join script drops the write
units. -/
def gsiRW23 : PyVal :=
  .dict [("GlobalSecondaryIndexes",
          .dict [("g", .dict [("ReadCapacityUnits", .num 2),
                              ("WriteCapacityUnits", .num 3)])])]

/-- Report carrying only a write figure for one secondary index. -/
def gsiW5 : PyVal :=
  .dict [("GlobalSecondaryIndexes",
          .dict [("g", .dict [("WriteCapacityUnits", .num 5)])])]

lemma join_game_people_le {s : GameState} {t : ResourceTracker} (u : String)
    (h : s.people ≤ MAX_PLAYERS) :
    ((join_game_for_user s u t).2.1).people ≤ MAX_PLAYERS := by
  by_cases hc : u ∉ s.members ∧ s.people ≤ MAX_PLAYERS - 1
  · simp only [join_game_for_user, transact_join, if_pos hc]
    have := hc.2
    simp [MAX_PLAYERS] at *
    omega
  · simp only [join_game_for_user, transact_join, if_neg hc]
    exact h

lemma run_joins_people_le : ∀ (users : List String) (s : GameState)
    (t : ResourceTracker), s.people ≤ MAX_PLAYERS →
    ((run_joins s t users).1).people ≤ MAX_PLAYERS := by
  intro users
  induction users with
  | nil => intro s t h; simpa [run_joins] using h
  | cons u us ih =>
    intro s t h
    have h1 := join_game_people_le (s := s) (t := t) u h
    simpa [run_joins, List.foldl_cons] using
      ih (join_game_for_user s u t).2.1 (join_game_for_user s u t).2.2 h1

lemma join_game_members_nodup {s : GameState} {t : ResourceTracker}
    (u : String) (h : s.members.Nodup) :
    ((join_game_for_user s u t).2.1).members.Nodup := by
  by_cases hc : u ∉ s.members ∧ s.people ≤ MAX_PLAYERS - 1
  · simp only [join_game_for_user, transact_join, if_pos hc]
    refine List.Nodup.append h (List.nodup_singleton _) ?_
    intro a ha hb
    simp only [List.mem_singleton] at hb
    exact hc.1 (hb ▸ ha)
  · simp only [join_game_for_user, transact_join, if_neg hc]
    exact h

lemma run_joins_members_nodup : ∀ (users : List String) (s : GameState)
    (t : ResourceTracker), s.members.Nodup →
    ((run_joins s t users).1).members.Nodup := by
  intro users
  induction users with
  | nil => intro s t h; simpa [run_joins] using h
  | cons u us ih =>
    intro s t h
    have h1 := join_game_members_nodup (s := s) (t := t) u h
    simpa [run_joins, List.foldl_cons] using
      ih (join_game_for_user s u t).2.1 (join_game_for_user s u t).2.2 h1

/-- C1: for every game whose player count starts at or below the capacity
ceiling of 500, a join admission write (join_game_for_user) increments the
player count by exactly 1 and only when the pre-increment count is at most
499, so under any sequence of join attempts (concurrent attempts serialize
as some sequence of atomic store transactions) the player count never
exceeds 500; a join attempted at people = 500 fails and leaves the count at
500. -/
theorem C1_join_capacity_ceiling (s : GameState) (t : ResourceTracker)
    (users : List String) (h : s.people ≤ 500) :
    ((run_joins s t users).1).people ≤ 500 ∧
    (∀ u, (join_game_for_user s u t).1 = true →
      s.people ≤ 499 ∧
      ((join_game_for_user s u t).2.1).people = s.people + 1) ∧
    (s.people = 500 → ∀ u,
      (join_game_for_user s u t).1 = false ∧
      (join_game_for_user s u t).2.1 = s) := by
  refine ⟨run_joins_people_le users s t h, ?_, ?_⟩
  · intro u hu
    by_cases hc : u ∉ s.members ∧ s.people ≤ MAX_PLAYERS - 1
    · refine ⟨hc.2, ?_⟩
      simp [join_game_for_user, transact_join, if_pos hc]
    · simp only [join_game_for_user, transact_join, if_neg hc] at hu
      simp at hu
  · intro h500 u
    have hc : ¬(u ∉ s.members ∧ s.people ≤ MAX_PLAYERS - 1) := by
      intro hc
      have := hc.2
      simp [MAX_PLAYERS] at this
      omega
    simp [join_game_for_user, transact_join, if_neg hc]

/-- Witness for C1 at a concrete full game. -/
theorem C1_join_capacity_ceiling_witness :
    ((run_joins { people := 500, members := [] } reset_tracker
       ["anna", "ben"]).1).people ≤ 500 :=
  (C1_join_capacity_ceiling { people := 500, members := [] } reset_tracker
    ["anna", "ben"] (by decide)).1

/-- C2: a membership row for a (game, username) pair is never duplicated:
join sequences preserve distinctness of the membership rows, and a join for
an already-enrolled username fails, changes neither the membership rows nor
the player count (the two transaction statements apply atomically or not at
all), records the conflict as an error on the tracker, and touches no
accumulator. -/
theorem C2_membership_at_most_once (s : GameState) (t : ResourceTracker)
    (users : List String) (u : String) :
    (s.members.Nodup → ((run_joins s t users).1).members.Nodup) ∧
    (u ∈ s.members →
      (join_game_for_user s u t).1 = false ∧
      (join_game_for_user s u t).2.1 = s ∧
      ((join_game_for_user s u t).2.2).status = "failed" ∧
      ((join_game_for_user s u t).2.2).error.isSome = true ∧
      ((join_game_for_user s u t).2.2).acc = t.acc ∧
      ((join_game_for_user s u t).2.2).operations = t.operations) ∧
    (∀ v, (join_game_for_user s v t).1 = false →
      (join_game_for_user s v t).2.1 = s) := by
  refine ⟨run_joins_members_nodup users s t, ?_, ?_⟩
  · intro hu
    have hc : ¬(u ∉ s.members ∧ s.people ≤ MAX_PLAYERS - 1) := by
      intro hc; exact hc.1 hu
    simp [join_game_for_user, transact_join, if_neg hc, set_error]
  · intro v hv
    by_cases hc : v ∉ s.members ∧ s.people ≤ MAX_PLAYERS - 1
    · simp only [join_game_for_user, transact_join, if_pos hc] at hv
      simp at hv
    · simp [join_game_for_user, transact_join, if_neg hc]

/-- Witness for C2 at a concrete already-enrolled user. -/
theorem C2_membership_at_most_once_witness :
    (join_game_for_user { people := 1, members := ["alice"] } "alice"
       reset_tracker).1 = false ∧
    (join_game_for_user { people := 1, members := ["alice"] } "alice"
       reset_tracker).2.1 = { people := 1, members := ["alice"] } := by
  have h := (C2_membership_at_most_once { people := 1, members := ["alice"] }
    reset_tracker [] "alice").2.1 (by decide)
  exact ⟨h.1, h.2.1⟩

/-- C10: when the final join attempt succeeds, main (join script lines
486-494) unconditionally restores status success and clears the error
message, even if an earlier call had recorded an error via set_error; the
emitted usage record then reports status success with no error field while
retaining the accumulated totals and the full operation history. -/
theorem C10_success_overwrites_error (t : ResourceTracker) (m : String) :
    (main_finalize true (set_error t m)).status = "success" ∧
    (main_finalize true (set_error t m)).error = none ∧
    (main_finalize true (set_error t m)).acc = t.acc ∧
    (main_finalize true (set_error t m)).operations = t.operations ∧
    (log_resource_entry (main_finalize true (set_error t m))).status =
      "success" ∧
    (log_resource_entry (main_finalize true (set_error t m))).error = none ∧
    (log_resource_entry (main_finalize true (set_error t m))).rcu =
      t.acc.total_rcu ∧
    (log_resource_entry (main_finalize true (set_error t m))).wcu =
      t.acc.total_wcu ∧
    (log_resource_entry (main_finalize true (set_error t m))).operations =
      t.operations := by
  simp [main_finalize, set_error, log_resource_entry]

lemma chunks100_nil {α : Type} : chunks100 ([] : List α) = [] := by
  simp [chunks100]

lemma chunks100_cons {α : Type} (l : List α) (h : l ≠ []) :
    chunks100 l = l.take 100 :: chunks100 (l.drop 100) := by
  rw [chunks100]
  simp [h]

lemma chunks100_length_aux {α : Type} :
    ∀ (n : ℕ) (l : List α), l.length ≤ n →
    (chunks100 l).length = (l.length + 99) / 100 := by
  intro n
  induction n with
  | zero =>
    intro l h
    have : l = [] := by
      cases l with
      | nil => rfl
      | cons x xs => simp at h
    subst this
    simp [chunks100_nil]
  | succ n ih =>
    intro l h
    cases l with
    | nil => simp [chunks100_nil]
    | cons x xs =>
      rw [chunks100_cons _ (by simp)]
      have hd : ((x :: xs).drop 100).length ≤ n := by
        simp only [List.length_drop, List.length_cons]
        simp only [List.length_cons] at h
        omega
      rw [List.length_cons, ih _ hd, List.length_drop]
      simp only [List.length_cons]
      omega

lemma chunks100_length {α : Type} (l : List α) :
    (chunks100 l).length = (l.length + 99) / 100 :=
  chunks100_length_aux l.length l le_rfl

lemma chunks100_join_aux {α : Type} :
    ∀ (n : ℕ) (l : List α), l.length ≤ n → (chunks100 l).flatten = l := by
  intro n
  induction n with
  | zero =>
    intro l h
    have : l = [] := by
      cases l with
      | nil => rfl
      | cons x xs => simp at h
    subst this
    simp [chunks100_nil]
  | succ n ih =>
    intro l h
    cases l with
    | nil => simp [chunks100_nil]
    | cons x xs =>
      rw [chunks100_cons _ (by simp)]
      have hd : ((x :: xs).drop 100).length ≤ n := by
        simp only [List.length_drop, List.length_cons]
        simp only [List.length_cons] at h
        omega
      rw [List.flatten_cons, ih _ hd, List.take_append_drop]

lemma chunks100_join {α : Type} (l : List α) : (chunks100 l).flatten = l :=
  chunks100_join_aux l.length l le_rfl

lemma chunks100_mem_aux {α : Type} :
    ∀ (n : ℕ) (l : List α), l.length ≤ n →
    ∀ b ∈ chunks100 l, b.length ≤ 100 ∧ b ≠ [] := by
  intro n
  induction n with
  | zero =>
    intro l h b hb
    have : l = [] := by
      cases l with
      | nil => rfl
      | cons x xs => simp at h
    subst this
    simp [chunks100_nil] at hb
  | succ n ih =>
    intro l h b hb
    cases l with
    | nil => simp [chunks100_nil] at hb
    | cons x xs =>
      rw [chunks100_cons _ (by simp)] at hb
      have hd : ((x :: xs).drop 100).length ≤ n := by
        simp only [List.length_drop, List.length_cons]
        simp only [List.length_cons] at h
        omega
      rw [List.mem_cons] at hb
      rcases hb with hb | hb
      · subst hb
        constructor
        · simp [List.length_take]
        · simp
      · exact ih _ hd b hb

lemma ggdLoop_spec {β : Type} (fetch : List (String × String) → List β) :
    ∀ (n : ℕ) (keys : List (String × String)), keys.length ≤ n →
    ∀ (j : ℕ) (t : ResourceTracker) (acc : List β),
    ggdLoop fetch keys j t acc =
      (acc ++ ((chunks100 keys).map fetch).flatten,
       { t with operations := (t.operations ++
           (List.range (chunks100 keys).length).map
             (fun i => batch_op_name (j + i))) }) := by
  intro n
  induction n with
  | zero =>
    intro keys h j t acc
    have : keys = [] := by
      cases keys with
      | nil => rfl
      | cons x xs => simp at h
    subst this
    rw [ggdLoop]
    simp [chunks100_nil]
  | succ n ih =>
    intro keys h j t acc
    cases keys with
    | nil =>
      rw [ggdLoop]
      simp [chunks100_nil]
    | cons x xs =>
      rw [ggdLoop]
      have hd : ((x :: xs).drop 100).length ≤ n := by
        simp only [List.length_drop, List.length_cons]
        simp only [List.length_cons] at h
        omega
      rw [if_neg (by simp)]
      rw [ih _ hd]
      rw [chunks100_cons (x :: xs) (by simp)]
      have hmap : ∀ k : ℕ, (List.range (k + 1)).map
            (fun i => batch_op_name (j + i)) =
          batch_op_name j :: (List.range k).map
            (fun i => batch_op_name (j + 1 + i)) := by
        intro k
        rw [List.range_succ_eq_map, List.map_cons, List.map_map]
        simp only [Nat.add_zero]
        refine congrArg _ (List.map_congr_left ?_)
        intro i _
        simp only [Function.comp_apply]
        congr 1
        omega
      rw [Prod.mk.injEq]
      constructor
      · simp [List.append_assoc]
      · simp [appendOp, hmap, List.append_assoc]

/-- C9: the bulk lookup partitions the keys built from N game ids, in input
order, into ceil(N/100) consecutive batches of at most 100 keys, issues one
bulk-read call per batch, records one batch-indexed operation name per
batch, and returns the batches' results aggregated in batch order; 150 ids
yield exactly 2 batches (100 + 50) with 2 distinct operation names. -/
theorem C9_batching {β : Type} (fetch : List (String × String) → List β)
    (ids : List String) (t : ResourceTracker) :
    (chunks100 (game_keys ids)).length = (ids.length + 99) / 100 ∧
    (chunks100 (game_keys ids)).flatten = game_keys ids ∧
    (∀ b ∈ chunks100 (game_keys ids), b.length ≤ 100 ∧ b ≠ []) ∧
    (get_game_details fetch ids t).1 =
      ((chunks100 (game_keys ids)).map fetch).flatten ∧
    (get_game_details fetch ids t).2.operations =
      t.operations ++
        (List.range (chunks100 (game_keys ids)).length).map batch_op_name ∧
    (ids.length = 150 →
      (chunks100 (game_keys ids)).length = 2 ∧
      (chunks100 (game_keys ids)).map List.length = [100, 50] ∧
      ((List.range 2).map batch_op_name).Nodup) := by
  have hlen : (game_keys ids).length = ids.length := by simp [game_keys]
  have hname : ∀ k : ℕ, (List.range k).map (fun i => batch_op_name (0 + i)) =
      (List.range k).map batch_op_name := by
    intro k
    refine List.map_congr_left ?_
    intro i _
    simp
  refine ⟨by rw [chunks100_length, hlen], chunks100_join _,
    chunks100_mem_aux (game_keys ids).length _ le_rfl, ?_, ?_, ?_⟩
  · cases ids with
    | nil => simp [get_game_details, game_keys, chunks100_nil]
    | cons x xs =>
      rw [get_game_details, if_neg (by simp)]
      rw [ggdLoop_spec fetch (game_keys (x :: xs)).length _ le_rfl]
      simp
  · cases ids with
    | nil => simp [get_game_details, game_keys, chunks100_nil]
    | cons x xs =>
      rw [get_game_details, if_neg (by simp)]
      rw [ggdLoop_spec fetch (game_keys (x :: xs)).length _ le_rfl]
      simp [hname]
  · intro h150
    have hl : (game_keys ids).length = 150 := by rw [hlen, h150]
    have h1 : game_keys ids ≠ [] := by
      intro e
      rw [e] at hl
      simp at hl
    have hd1 : ((game_keys ids).drop 100).length = 50 := by
      simp [List.length_drop, hl]
    have h2 : (game_keys ids).drop 100 ≠ [] := by
      intro e
      rw [e] at hd1
      simp at hd1
    have hdd : ((game_keys ids).drop 100).drop 100 = [] := by
      apply List.eq_nil_of_length_eq_zero
      simp [List.length_drop, hl]
    refine ⟨?_, ?_, by decide⟩
    · rw [chunks100_length, hlen, h150]
    · rw [chunks100_cons _ h1, chunks100_cons _ h2, hdd, chunks100_nil]
      simp [List.length_take, hl, hd1]

/-- Witness for C9 at 150 concrete game ids. -/
theorem C9_batching_witness :
    (chunks100 (game_keys (List.replicate 150 "g"))).length = 2 ∧
    (chunks100 (game_keys (List.replicate 150 "g"))).map List.length =
      [100, 50] :=
  have h := (C9_batching (fun b => b.map Prod.fst) (List.replicate 150 "g")
    reset_tracker).2.2.2.2.2 (by simp)
  ⟨h.1, h.2.1⟩

/-- C3 counterexample: normalization can raise.  A report whose Table entry
is a number makes the join-script tracker call .get on a non-mapping
(line 91), and a report whose GlobalSecondaryIndexes entry is a list makes
the query-script tracker call .items() on a non-mapping (line 97); both
raise AttributeError instead of degrading to zero. -/
theorem C3_normalization_raises_counterexample :
    add_consumption_join "query_x" (.dict [("Table", .num 3)])
      reset_tracker = .error "AttributeError" ∧
    add_consumption_query "put_x"
      (.dict [("GlobalSecondaryIndexes", .list [])]) reset_tracker =
      .error "AttributeError" :=
  ⟨rfl, rfl⟩

/-- C8 counterexample: a list of mappings whose item is malformed raises
inside the loop (join script line 154), so line 217 is never reached and the
operation name is not appended to the history. -/
theorem C8_malformed_no_append_counterexample :
    add_consumption_join "put_y" (.list [.dict [("Table", .num 1)]])
      reset_tracker = .error "AttributeError" :=
  rfl

/-- C5 counterexample: scan_x belongs to the query/get/scan family named by
the claim, yet the query-script tracker classifies its undifferentiated
total as write units, because its prefix test (query script line 122) omits
scan_. -/
theorem C5_scan_classification_counterexample :
    py_startswith "scan_x" "scan_" = true ∧
    (add_consumption_query "scan_x" (capOnly 7) reset_tracker).toOption.map
      (fun r => (r.acc.total_rcu, r.acc.total_wcu)) = some (0, 7) ∧
    ((0 : ℤ) ≠ 7) := by
  refine ⟨by decide, by decide, by decide⟩

/-- C7 counterexample: the two trackers disagree both on a scan_-named
operation with an undifferentiated total (read in the join script, write in
the query script) and on a list-shaped report with separate per-index
read/write figures (the join list branch drops the write units from the
total, the query list branch keeps them). -/
theorem C7_trackers_differ_counterexample :
    (add_consumption_join "scan_x" (capOnly 5) reset_tracker).toOption.map
      (fun r => (r.acc.total_rcu, r.acc.total_wcu)) = some (5, 0) ∧
    (add_consumption_query "scan_x" (capOnly 5) reset_tracker).toOption.map
      (fun r => (r.acc.total_rcu, r.acc.total_wcu)) = some (0, 5) ∧
    (add_consumption_join "query_x" (.list [gsiRW23])
        reset_tracker).toOption.map (fun r => r.acc.total_wcu) = some 0 ∧
    (add_consumption_query "query_x" (.list [gsiRW23])
        reset_tracker).toOption.map (fun r => r.acc.total_wcu) = some 3 ∧
    some ((5 : ℤ), (0 : ℤ)) ≠ some ((0 : ℤ), (5 : ℤ)) ∧
    some (0 : ℤ) ≠ some (3 : ℤ) := by
  refine ⟨by decide, by decide, by decide, by decide, by decide, by decide⟩

/-- C6 counterexample (join script): folding [A, emptyreport] as one
list-shaped report and then [emptyreport] contributes no write units for a
read-shaped operation, while folding the same three reports individually as
single reports contributes the 3 write units of the secondary index. -/
theorem C6_list_fold_counterexample :
    ((add_consumption_join "query_x" (.list [gsiRW23, .dict []])
        reset_tracker).bind
      (add_consumption_join "query_x" (.list [.dict []]))).toOption.map
      (fun r => r.acc.total_wcu) = some 0 ∧
    (((add_consumption_join "query_x" gsiRW23 reset_tracker).bind
        (add_consumption_join "query_x" (.dict []))).bind
      (add_consumption_join "query_x" (.dict []))).toOption.map
      (fun r => r.acc.total_wcu) = some 3 ∧
    some (0 : ℤ) ≠ some (3 : ℤ) := by
  refine ⟨by decide, by decide, by decide⟩

/-- C4 counterexample: in the join script list branch, a report whose
secondary index carries 5 write units and no top-level total takes the
otherwise-path, which adds 0 to the overall write total instead of the
base-table figure (0) plus the per-index figure (5) computed by the same
normalization (and recorded in the per-index accumulator). -/
theorem C4_list_branch_counterexample :
    (add_consumption_join "query_x" (.list [gsiW5])
        reset_tracker).toOption.map
      (fun r => (r.acc.total_rcu, r.acc.total_wcu,
                 r.acc.table_consumption.wcu, r.acc.gsi_consumption)) =
      some (0, 0, 0, [("g", { rcu := 0, wcu := 5 })]) ∧
    ((0 : ℤ) ≠ 0 + 5) := by
  refine ⟨by decide, by decide⟩

lemma except_bind_ok {α β : Type} {e : PyM α} {f : α → PyM β} {b : β}
    (h : (e >>= f) = .ok b) : ∃ a, e = .ok a ∧ f a = .ok b := by
  cases e with
  | ok a => exact ⟨a, rfl, h⟩
  | error m => simp [Bind.bind, Except.bind] at h

/-- C7 amended: the two tracker implementations coincide for every operation
name without the scan_ prefix and every non-list report; they diverge on
scan_-named operations (the query script classifies those as writes) and on
list-shaped reports (the join script computes overall totals differently in
its list branch). -/
theorem C7_trackers_equiv_restricted (op : String) (v : PyVal)
    (t : ResourceTracker) (hscan : py_startswith op "scan_" = false)
    (hv : v.isList = false) :
    add_consumption_join op v t = add_consumption_query op v t := by
  have hrs : is_read_op_join op = is_read_op_query op := by
    simp [is_read_op_join, is_read_op_query, hscan]
  cases v with
  | pynull => rfl
  | num q => rfl
  | str s => rfl
  | dict es => simp [add_consumption_join, add_consumption_query, hrs]
  | list l => simp [PyVal.isList] at hv

/-- Witness for C7 at a concrete non-scan operation and single report. -/
theorem C7_trackers_equiv_restricted_witness :
    add_consumption_join "put_x" gsiRW23 reset_tracker =
      add_consumption_query "put_x" gsiRW23 reset_tracker :=
  C7_trackers_equiv_restricted "put_x" gsiRW23 reset_tracker
    (by decide) (by decide)

/-- C8 amended: on every call that completes without raising, whatever the
report shape and whichever branch is taken, the operation name is appended
to the history exactly once; a call that raises on a malformed report
appends nothing. -/
theorem C8_append_exactly_once (op : String) (v : PyVal)
    (t t1 t2 : ResourceTracker) :
    (add_consumption_join op v t = .ok t1 →
      t1.operations = t.operations ++ [op]) ∧
    (add_consumption_query op v t = .ok t2 →
      t2.operations = t.operations ++ [op]) := by
  constructor
  · intro h
    cases v with
    | pynull =>
      simp only [add_consumption_join] at h
      cases h
      rfl
    | num q =>
      simp only [add_consumption_join] at h
      cases h
      rfl
    | str s =>
      simp only [add_consumption_join] at h
      cases h
      rfl
    | dict es =>
      simp only [add_consumption_join] at h
      obtain ⟨c, _, h2⟩ := except_bind_ok h
      cases h2
      rfl
    | list l =>
      simp only [add_consumption_join] at h
      obtain ⟨c, _, h2⟩ := except_bind_ok h
      cases h2
      rfl
  · intro h
    cases v with
    | pynull =>
      simp only [add_consumption_query] at h
      cases h
      rfl
    | num q =>
      simp only [add_consumption_query] at h
      cases h
      rfl
    | str s =>
      simp only [add_consumption_query] at h
      cases h
      rfl
    | dict es =>
      simp only [add_consumption_query] at h
      obtain ⟨c, _, h2⟩ := except_bind_ok h
      cases h2
      rfl
    | list l =>
      simp only [add_consumption_query] at h
      obtain ⟨c, _, h2⟩ := except_bind_ok h
      cases h2
      rfl

/-- Witness for C8 at a concrete absent report. -/
theorem C8_append_exactly_once_witness :
    (appendOp reset_tracker "put_a").operations = [] ++ ["put_a"] :=
  (C8_append_exactly_once "put_a" .pynull reset_tracker
    (appendOp reset_tracker "put_a") (appendOp reset_tracker "put_a")).1 rfl

lemma add_join_dict (op : String) (es : List (String × PyVal))
    (t : ResourceTracker) :
    add_consumption_join op (.dict es) t =
      (normSingle (is_read_op_join op) (.dict es)).map
        (fun c => appendOp { t with acc := applyContrib c t.acc } op) := by
  cases h : normSingle (is_read_op_join op) (.dict es) <;>
    simp [add_consumption_join, h, Except.map, Bind.bind, Except.bind,
      pure, Except.pure]

lemma add_query_dict (op : String) (es : List (String × PyVal))
    (t : ResourceTracker) :
    add_consumption_query op (.dict es) t =
      (normSingle (is_read_op_query op) (.dict es)).map
        (fun c => appendOp { t with acc := applyContrib c t.acc } op) := by
  cases h : normSingle (is_read_op_query op) (.dict es) <;>
    simp [add_consumption_query, h, Except.map, Bind.bind, Except.bind,
      pure, Except.pure]

lemma normSingle_capU (rs : Bool) (q : ℤ) :
    normSingle rs (.dict [("CapacityUnits", .num q)]) =
      .ok { tr := 0, tw := 0, gsis := [],
            totr := if rs then q else 0, totw := if rs then 0 else q } := by
  cases rs <;> rfl

lemma normSingle_tableCapU (rs : Bool) (q : ℤ) :
    normSingle rs (.dict [("Table", .dict [("CapacityUnits", .num q)])]) =
      .ok { tr := if rs then q else 0, tw := if rs then 0 else q, gsis := [],
            totr := (if rs then q else 0) + 0,
            totw := (if rs then 0 else q) + 0 } := by
  cases rs <;> rfl

lemma normSingle_gsiCapU (rs : Bool) (n : String) (q : ℤ) :
    normSingle rs (.dict [("GlobalSecondaryIndexes",
        .dict [(n, .dict [("CapacityUnits", .num q)])])]) =
      .ok { tr := 0, tw := 0,
            gsis := [(n, if rs then q else 0, if rs then 0 else q)],
            totr := 0 + (0 + (if rs then q else 0)),
            totw := 0 + (0 + (if rs then 0 else q)) } := by
  cases rs <;> rfl

/-- C5 amended: a base-table entry, a secondary-index entry, or the
top-level report exposing only an undifferentiated unit figure is classified
as read units exactly when the operation name matches the read-prefix set of
the respective script, which is get_/query_/scan_ in the join script but
only get_/query_ in the query script (a scan_-prefixed name classifies as
write units there); the classification depends only on the operation name
supplied by the caller. -/
theorem C5_undifferentiated_classification (op : String) (q : ℤ) (n : String)
    (t : ResourceTracker) :
    (add_consumption_join op (capOnly q) t).toOption.map
      (fun r => (r.acc.total_rcu, r.acc.total_wcu)) =
      some (t.acc.total_rcu + (if is_read_op_join op then q else 0),
            t.acc.total_wcu + (if is_read_op_join op then 0 else q)) ∧
    (add_consumption_query op (capOnly q) t).toOption.map
      (fun r => (r.acc.total_rcu, r.acc.total_wcu)) =
      some (t.acc.total_rcu + (if is_read_op_query op then q else 0),
            t.acc.total_wcu + (if is_read_op_query op then 0 else q)) ∧
    (add_consumption_join op (tableCapOnly q) t).toOption.map
      (fun r => (r.acc.table_consumption.rcu, r.acc.table_consumption.wcu,
                 r.acc.total_rcu, r.acc.total_wcu)) =
      some (t.acc.table_consumption.rcu +
              (if is_read_op_join op then q else 0),
            t.acc.table_consumption.wcu +
              (if is_read_op_join op then 0 else q),
            t.acc.total_rcu + (if is_read_op_join op then q else 0),
            t.acc.total_wcu + (if is_read_op_join op then 0 else q)) ∧
    (add_consumption_query op (tableCapOnly q) t).toOption.map
      (fun r => (r.acc.table_consumption.rcu, r.acc.table_consumption.wcu,
                 r.acc.total_rcu, r.acc.total_wcu)) =
      some (t.acc.table_consumption.rcu +
              (if is_read_op_query op then q else 0),
            t.acc.table_consumption.wcu +
              (if is_read_op_query op then 0 else q),
            t.acc.total_rcu + (if is_read_op_query op then q else 0),
            t.acc.total_wcu + (if is_read_op_query op then 0 else q)) ∧
    (add_consumption_join op (gsiCapOnly n q) t).toOption.map
      (fun r => (r.acc.gsi_consumption, r.acc.total_rcu,
                 r.acc.total_wcu)) =
      some (gsiInsertAdd t.acc.gsi_consumption n
              (if is_read_op_join op then q else 0)
              (if is_read_op_join op then 0 else q),
            t.acc.total_rcu + (if is_read_op_join op then q else 0),
            t.acc.total_wcu + (if is_read_op_join op then 0 else q)) ∧
    (add_consumption_query op (gsiCapOnly n q) t).toOption.map
      (fun r => (r.acc.gsi_consumption, r.acc.total_rcu,
                 r.acc.total_wcu)) =
      some (gsiInsertAdd t.acc.gsi_consumption n
              (if is_read_op_query op then q else 0)
              (if is_read_op_query op then 0 else q),
            t.acc.total_rcu + (if is_read_op_query op then q else 0),
            t.acc.total_wcu + (if is_read_op_query op then 0 else q)) := by
  refine ⟨?_, ?_, ?_, ?_, ?_, ?_⟩
  · simp only [capOnly, add_join_dict, normSingle_capU]
    simp [Except.map, Except.toOption, appendOp, applyContrib]
  · simp only [capOnly, add_query_dict, normSingle_capU]
    simp [Except.map, Except.toOption, appendOp, applyContrib]
  · simp only [tableCapOnly, capOnly, add_join_dict, normSingle_tableCapU]
    simp [Except.map, Except.toOption, appendOp, applyContrib]
  · simp only [tableCapOnly, capOnly, add_query_dict, normSingle_tableCapU]
    simp [Except.map, Except.toOption, appendOp, applyContrib]
  · simp only [gsiCapOnly, capOnly, add_join_dict, normSingle_gsiCapU]
    simp [Except.map, Except.toOption, appendOp, applyContrib]
  · simp only [gsiCapOnly, capOnly, add_query_dict, normSingle_gsiCapU]
    simp [Except.map, Except.toOption, appendOp, applyContrib]

lemma tableFigures_tableRW (rs : Bool) (a b : ℤ)
    (rest : List (String × PyVal)) :
    tableFigures rs (.dict (("Table", tableRW a b) :: rest)) = .ok (a, b) := by
  by_cases ha : a = 0
  · by_cases hb : b = 0
    · subst ha; subst hb; cases rs <;> rfl
    · simp [tableFigures, tableRW, pyGetD, pyHasKey, pyIndex, pyIsZero,
        pyAsNum, Bind.bind, Except.bind, pure, Except.pure, hb,
        List.lookup, Option.getD]
  · simp [tableFigures, tableRW, pyGetD, pyHasKey, pyIndex, pyIsZero,
      pyAsNum, Bind.bind, Except.bind, pure, Except.pure, ha,
      List.lookup, Option.getD]

lemma gsiEntryStep_rw (rs : Bool) (acc : List (String × ℤ × ℤ) × ℤ × ℤ)
    (n : String) (r w : ℤ) :
    gsiEntryStep rs acc (n, tableRW r w) =
      .ok (acc.1 ++ [(n, r, w)], acc.2.1 + r, acc.2.2 + w) := by
  by_cases hr : r = 0
  · by_cases hw : w = 0
    · subst hr; subst hw; cases rs <;> rfl
    · simp [gsiEntryStep, tableRW, pyGetD, pyIsZero, pyAsNum, Bind.bind,
        Except.bind, pure, Except.pure, hw, List.lookup, Option.getD]
  · simp [gsiEntryStep, tableRW, pyGetD, pyIsZero, pyAsNum, Bind.bind,
      Except.bind, pure, Except.pure, hr, List.lookup, Option.getD]

lemma gsiFold_rw (rs : Bool) : ∀ (gs : List (String × ℤ × ℤ))
    (acc0 : List (String × ℤ × ℤ)) (r0 w0 : ℤ),
    (gs.map (fun e => (e.1, tableRW e.2.1 e.2.2))).foldlM
      (gsiEntryStep rs) (acc0, r0, w0) =
      .ok (acc0 ++ gs, r0 + (gs.map (fun e => e.2.1)).sum,
           w0 + (gs.map (fun e => e.2.2)).sum) := by
  intro gs
  induction gs with
  | nil => intro acc0 r0 w0; simp [pure, Except.pure]
  | cons e es ih =>
    intro acc0 r0 w0
    simp only [List.map_cons, List.foldlM_cons, gsiEntryStep_rw, Bind.bind,
      Except.bind]
    rw [ih]
    simp [add_assoc]

lemma gsiFigures_gsiMap (rs : Bool) (a b : ℤ) (gs : List (String × ℤ × ℤ))
    (rest : List (String × PyVal)) :
    gsiFigures rs (.dict (("Table", tableRW a b) ::
        ("GlobalSecondaryIndexes", gsiMap gs) :: rest)) =
      .ok (gs, 0 + (gs.map (fun e => e.2.1)).sum,
           0 + (gs.map (fun e => e.2.2)).sum) := by
  have h := gsiFold_rw rs gs [] 0 0
  simp only [gsiFigures, pyHasKey, pyIndex, pyItems, List.lookup,
    Option.getD, gsiMap]
  simp only [List.lookup, Option.isSome]
  simp [Bind.bind, Except.bind, pure, Except.pure, gsiMap] at h ⊢
  exact h

lemma normSingle_reportNoTotal (rs : Bool) (a b : ℤ)
    (gs : List (String × ℤ × ℤ)) :
    normSingle rs (reportNoTotal a b gs) =
      .ok { tr := a, tw := b, gsis := gs,
            totr := a + (gs.map (fun e => e.2.1)).sum,
            totw := b + (gs.map (fun e => e.2.2)).sum } := by
  have h1 : tableFigures rs (reportNoTotal a b gs) = .ok (a, b) :=
    tableFigures_tableRW rs a b [("GlobalSecondaryIndexes", gsiMap gs)]
  have h2 : gsiFigures rs (reportNoTotal a b gs) =
      .ok (gs, 0 + (gs.map (fun e => e.2.1)).sum,
           0 + (gs.map (fun e => e.2.2)).sum) :=
    gsiFigures_gsiMap rs a b gs []
  have h3 : totalsSingle rs (reportNoTotal a b gs) a b
      ((gs.map (fun e => e.2.1)).sum) ((gs.map (fun e => e.2.2)).sum) =
      .ok (a + (gs.map (fun e => e.2.1)).sum,
           b + (gs.map (fun e => e.2.2)).sum) := by
    simp [totalsSingle, reportNoTotal, pyHasKey, List.lookup, pure,
      Except.pure]
  simp [normSingle, h1, h2, h3, Bind.bind, Except.bind, pure, Except.pure]

lemma normSingle_reportWithTotal (rs : Bool) (a b c : ℤ)
    (gs : List (String × ℤ × ℤ)) :
    normSingle rs (reportWithTotal a b gs c) =
      .ok { tr := a, tw := b, gsis := gs,
            totr := if rs then c else 0,
            totw := if rs then 0 else c } := by
  have h1 : tableFigures rs (reportWithTotal a b gs c) = .ok (a, b) :=
    tableFigures_tableRW rs a b
      [("GlobalSecondaryIndexes", gsiMap gs), ("CapacityUnits", .num c)]
  have h2 : gsiFigures rs (reportWithTotal a b gs c) =
      .ok (gs, 0 + (gs.map (fun e => e.2.1)).sum,
           0 + (gs.map (fun e => e.2.2)).sum) :=
    gsiFigures_gsiMap rs a b gs [("CapacityUnits", .num c)]
  have h3 : totalsSingle rs (reportWithTotal a b gs c) a b
      ((gs.map (fun e => e.2.1)).sum) ((gs.map (fun e => e.2.2)).sum) =
      .ok (if rs then c else 0, if rs then 0 else c) := by
    simp [totalsSingle, reportWithTotal, pyHasKey, pyGetD, pyAsNum,
      List.lookup, pure, Except.pure, Bind.bind, Except.bind]
    cases rs <;> simp
  simp [normSingle, h1, h2, h3, Bind.bind, Except.bind, pure, Except.pure]

lemma add_join_norm {op : String} {v : PyVal} {c : Contrib}
    (t : ResourceTracker) (hd : v.isDict = true)
    (hv : normSingle (is_read_op_join op) v = .ok c) :
    add_consumption_join op v t =
      .ok (appendOp { t with acc := applyContrib c t.acc } op) := by
  cases v with
  | pynull => simp [PyVal.isDict] at hd
  | num q => simp [PyVal.isDict] at hd
  | str s => simp [PyVal.isDict] at hd
  | list l => simp [PyVal.isDict] at hd
  | dict es =>
    simp [add_consumption_join, hv, Bind.bind, Except.bind, pure,
      Except.pure]

lemma add_query_norm {op : String} {v : PyVal} {c : Contrib}
    (t : ResourceTracker) (hd : v.isDict = true)
    (hv : normSingle (is_read_op_query op) v = .ok c) :
    add_consumption_query op v t =
      .ok (appendOp { t with acc := applyContrib c t.acc } op) := by
  cases v with
  | pynull => simp [PyVal.isDict] at hd
  | num q => simp [PyVal.isDict] at hd
  | str s => simp [PyVal.isDict] at hd
  | list l => simp [PyVal.isDict] at hd
  | dict es =>
    simp [add_consumption_query, hv, Bind.bind, Except.bind, pure,
      Except.pure]

lemma add_query_list_single {op : String} {v : PyVal} {c : Contrib}
    (t : ResourceTracker) (hd : v.isDict = true)
    (hv : normSingle (is_read_op_query op) v = .ok c) :
    add_consumption_query op (.list [v]) t =
      .ok (appendOp { t with acc := applyContrib c t.acc } op) := by
  simp [add_consumption_query, List.foldlM_cons, List.foldlM_nil,
    queryListStep, hd, hv, Bind.bind, Except.bind, pure, Except.pure]

/-- C4 amended: for single (mapping) reports in both scripts, and for list
items in the query script, the overall totals are updated by exactly one of
two mutually exclusive paths: a top-level undifferentiated total is used
alone (classified by the operation name), otherwise the base-table figure
plus all per-index figures computed by the normalization is added; in the
join script's list branch the otherwise-path instead recomputes the index
contribution with a different rule (read-shaped operations take each raw
read figure, falling back to the raw undifferentiated figure when it is
falsy, and contribute nothing to writes, and symmetrically), which can drop
index units from the totals. -/
theorem C4_total_exclusive_paths (op : String) (a b c : ℤ)
    (gs : List (String × ℤ × ℤ)) (t : ResourceTracker) :
    ((add_consumption_join op (reportWithTotal a b gs c) t).toOption.map
      (fun r => (r.acc.total_rcu, r.acc.total_wcu)) =
      some (t.acc.total_rcu + (if is_read_op_join op then c else 0),
            t.acc.total_wcu + (if is_read_op_join op then 0 else c))) ∧
    ((add_consumption_query op (reportWithTotal a b gs c) t).toOption.map
      (fun r => (r.acc.total_rcu, r.acc.total_wcu)) =
      some (t.acc.total_rcu + (if is_read_op_query op then c else 0),
            t.acc.total_wcu + (if is_read_op_query op then 0 else c))) ∧
    ((add_consumption_join op (reportNoTotal a b gs) t).toOption.map
      (fun r => (r.acc.total_rcu, r.acc.total_wcu)) =
      some (t.acc.total_rcu + (a + (gs.map (fun e => e.2.1)).sum),
            t.acc.total_wcu + (b + (gs.map (fun e => e.2.2)).sum))) ∧
    ((add_consumption_query op (reportNoTotal a b gs) t).toOption.map
      (fun r => (r.acc.total_rcu, r.acc.total_wcu)) =
      some (t.acc.total_rcu + (a + (gs.map (fun e => e.2.1)).sum),
            t.acc.total_wcu + (b + (gs.map (fun e => e.2.2)).sum))) ∧
    ((add_consumption_query op (.list [reportWithTotal a b gs c])
        t).toOption.map (fun r => (r.acc.total_rcu, r.acc.total_wcu)) =
      some (t.acc.total_rcu + (if is_read_op_query op then c else 0),
            t.acc.total_wcu + (if is_read_op_query op then 0 else c))) ∧
    ((add_consumption_query op (.list [reportNoTotal a b gs])
        t).toOption.map (fun r => (r.acc.total_rcu, r.acc.total_wcu)) =
      some (t.acc.total_rcu + (a + (gs.map (fun e => e.2.1)).sum),
            t.acc.total_wcu + (b + (gs.map (fun e => e.2.2)).sum))) := by
  refine ⟨?_, ?_, ?_, ?_, ?_, ?_⟩
  · rw [add_join_norm t (by rfl) (normSingle_reportWithTotal _ a b c gs)]
    simp [Except.toOption, appendOp, applyContrib]
  · rw [add_query_norm t (by rfl) (normSingle_reportWithTotal _ a b c gs)]
    simp [Except.toOption, appendOp, applyContrib]
  · rw [add_join_norm t (by rfl) (normSingle_reportNoTotal _ a b gs)]
    simp [Except.toOption, appendOp, applyContrib]
  · rw [add_query_norm t (by rfl) (normSingle_reportNoTotal _ a b gs)]
    simp [Except.toOption, appendOp, applyContrib]
  · rw [add_query_list_single t (by rfl)
      (normSingle_reportWithTotal _ a b c gs)]
    simp [Except.toOption, appendOp, applyContrib]
  · rw [add_query_list_single t (by rfl)
      (normSingle_reportNoTotal _ a b gs)]
    simp [Except.toOption, appendOp, applyContrib]

lemma applyContrib_zero (a : ConsumptionAcc) :
    applyContrib { tr := 0, tw := 0, gsis := [], totr := 0, totw := 0 } a =
      a := by
  cases a with
  | mk tr tw tc gc =>
    cases tc
    simp [applyContrib]

lemma queryListStep_contrib (rs : Bool) (a : ConsumptionAcc) (it : PyVal) :
    queryListStep rs a it =
      (contribOf rs it).map (fun c => applyContrib c a) := by
  cases it with
  | dict es =>
    cases h : normSingle rs (.dict es) <;>
      simp [queryListStep, contribOf, PyVal.isDict, h, Except.map,
        Bind.bind, Except.bind, pure, Except.pure]
  | pynull =>
    simp [queryListStep, contribOf, PyVal.isDict, Except.map,
      applyContrib_zero, pure, Except.pure]
  | num q =>
    simp [queryListStep, contribOf, PyVal.isDict, Except.map,
      applyContrib_zero, pure, Except.pure]
  | str s =>
    simp [queryListStep, contribOf, PyVal.isDict, Except.map,
      applyContrib_zero, pure, Except.pure]
  | list l =>
    simp [queryListStep, contribOf, PyVal.isDict, Except.map,
      applyContrib_zero, pure, Except.pure]

lemma add_query_nonlist (op : String) (v : PyVal) (t : ResourceTracker)
    (hv : v.isList = false) :
    add_consumption_query op v t =
      (contribOf (is_read_op_query op) v).map
        (fun c => appendOp { t with acc := applyContrib c t.acc } op) := by
  cases v with
  | pynull =>
    simp [add_consumption_query, contribOf, Except.map, applyContrib_zero,
      pure, Except.pure]
  | num q =>
    simp [add_consumption_query, contribOf, Except.map, applyContrib_zero,
      pure, Except.pure]
  | str s =>
    simp [add_consumption_query, contribOf, Except.map, applyContrib_zero,
      pure, Except.pure]
  | dict es => rw [add_query_dict, contribOf]
  | list l => simp [PyVal.isList] at hv

lemma add_query_list (op : String) (items : List PyVal)
    (t : ResourceTracker) :
    add_consumption_query op (.list items) t =
      (items.foldlM (queryListStep (is_read_op_query op)) t.acc).map
        (fun a1 => appendOp { t with acc := a1 } op) := by
  cases h : items.foldlM (queryListStep (is_read_op_query op)) t.acc <;>
    simp [add_consumption_query, h, Except.map, Bind.bind, Except.bind,
      pure, Except.pure]

/-- C6 amended: for the query-script tracker, recording [A, B] as one
list-shaped report and then [C] yields the same four accumulator groups as
recording A, B, C individually as single reports, for any mix of absent and
single (mapping) reports whose normalization succeeds; for the join-script
tracker the equality fails because its list branch computes overall totals
by a different per-index rule, and a report that is itself list-shaped is
skipped inside a list rather than folded. -/
theorem C6_query_fold_assoc (op : String) (A B C : PyVal)
    (t : ResourceTracker)
    (hA : A.isList = false) (hB : B.isList = false) (hC : C.isList = false)
    (hokA : pyOk (add_consumption_query op A reset_tracker) = true)
    (hokB : pyOk (add_consumption_query op B reset_tracker) = true)
    (hokC : pyOk (add_consumption_query op C reset_tracker) = true) :
    ∃ t1 t2 u1 u2 u3,
      add_consumption_query op (.list [A, B]) t = .ok t1 ∧
      add_consumption_query op (.list [C]) t1 = .ok t2 ∧
      add_consumption_query op A t = .ok u1 ∧
      add_consumption_query op B u1 = .ok u2 ∧
      add_consumption_query op C u2 = .ok u3 ∧
      t2.acc = u3.acc := by
  have getC : ∀ v : PyVal, v.isList = false →
      pyOk (add_consumption_query op v reset_tracker) = true →
      ∃ c, contribOf (is_read_op_query op) v = .ok c := by
    intro v hv hok
    rw [add_query_nonlist op v reset_tracker hv] at hok
    cases h : contribOf (is_read_op_query op) v with
    | ok c => exact ⟨c, rfl⟩
    | error m => simp [h, Except.map, pyOk] at hok
  obtain ⟨cA, hcA⟩ := getC A hA hokA
  obtain ⟨cB, hcB⟩ := getC B hB hokB
  obtain ⟨cC, hcC⟩ := getC C hC hokC
  refine ⟨appendOp { t with
      acc := applyContrib cB (applyContrib cA t.acc) } op, ?_, ?_, ?_, ?_⟩
  · exact appendOp { appendOp { t with
      acc := applyContrib cB (applyContrib cA t.acc) } op with
      acc := applyContrib cC (applyContrib cB (applyContrib cA t.acc)) } op
  · exact appendOp { t with acc := applyContrib cA t.acc } op
  · exact appendOp { appendOp { t with acc := applyContrib cA t.acc } op with
      acc := applyContrib cB (applyContrib cA t.acc) } op
  · refine ⟨appendOp { appendOp { appendOp { t with
      acc := applyContrib cA t.acc } op with
      acc := applyContrib cB (applyContrib cA t.acc) } op with
      acc := applyContrib cC (applyContrib cB (applyContrib cA t.acc)) } op,
      ?_, ?_, ?_, ?_, ?_, rfl⟩
    · rw [add_query_list]
      simp [List.foldlM_cons, List.foldlM_nil, queryListStep_contrib, hcA,
        hcB, Except.map, Bind.bind, Except.bind, pure, Except.pure, appendOp]
    · rw [add_query_list]
      simp [List.foldlM_cons, List.foldlM_nil, queryListStep_contrib, hcC,
        Except.map, Bind.bind, Except.bind, pure, Except.pure, appendOp]
    · rw [add_query_nonlist op A t hA, hcA]
      rfl
    · rw [add_query_nonlist op B _ hB, hcB]
      rfl
    · rw [add_query_nonlist op C _ hC, hcC]
      rfl

/-- Witness for C6 at concrete reports. -/
theorem C6_query_fold_assoc_witness :
    ∃ t1 t2 u1 u2 u3,
      add_consumption_query "query_x" (.list [capOnly 1, .pynull])
        reset_tracker = .ok t1 ∧
      add_consumption_query "query_x" (.list [tableCapOnly 2]) t1 = .ok t2 ∧
      add_consumption_query "query_x" (capOnly 1) reset_tracker = .ok u1 ∧
      add_consumption_query "query_x" .pynull u1 = .ok u2 ∧
      add_consumption_query "query_x" (tableCapOnly 2) u2 = .ok u3 ∧
      t2.acc = u3.acc :=
  C6_query_fold_assoc "query_x" (capOnly 1) .pynull (tableCapOnly 2)
    reset_tracker (by decide) (by decide) (by decide) (by decide)
    (by decide) (by decide)

lemma numOk_cases {o : Option PyVal} (h : numOk o = true) :
    o = none ∨ ∃ q : ℤ, o = some (.num q) := by
  cases o with
  | none => exact Or.inl rfl
  | some v =>
    cases v with
    | num q => exact Or.inr ⟨q, rfl⟩
    | pynull => simp [numOk] at h
    | str s => simp [numOk] at h
    | dict es => simp [numOk] at h
    | list l => simp [numOk] at h

lemma pyGetD_dict_num (tes : List (String × PyVal)) (k : String)
    (h : numOk (List.lookup k tes) = true) :
    ∃ q : ℤ, pyGetD (.dict tes) k (.num 0) = .ok (.num q) := by
  rcases numOk_cases h with h | ⟨q, h⟩
  · exact ⟨0, by simp [pyGetD, h, pure, Except.pure]⟩
  · exact ⟨q, by simp [pyGetD, h, pure, Except.pure]⟩

lemma foldlM_ok {σ α : Type} (f : σ → α → PyM σ) (l : List α)
    (h : ∀ a ∈ l, ∀ s, ∃ s', f s a = .ok s') :
    ∀ s, ∃ s', l.foldlM f s = .ok s' := by
  induction l with
  | nil => intro s; exact ⟨s, rfl⟩
  | cons a as ih =>
    intro s
    obtain ⟨s1, hs1⟩ := h a (by simp) s
    obtain ⟨s2, hs2⟩ := ih (fun x hx s => h x (by simp [hx]) s) s1
    exact ⟨s2, by simp [List.foldlM_cons, hs1, hs2, Bind.bind, Except.bind]⟩

lemma tableFigures_wf (rs : Bool) (es : List (String × PyVal))
    (hT : (match List.lookup "Table" es with
           | none => true
           | some tv => entryWF tv) = true) :
    ∃ ab, tableFigures rs (.dict es) = .ok ab := by
  cases hTl : List.lookup "Table" es with
  | none =>
    refine ⟨(0, 0), ?_⟩
    simp [tableFigures, pyGetD, pyHasKey, hTl, pyIsZero, pyAsNum,
      Bind.bind, Except.bind, pure, Except.pure, List.lookup]
  | some tv =>
    rw [hTl] at hT
    cases tv with
    | pynull => simp [entryWF] at hT
    | num q => simp [entryWF] at hT
    | str s => simp [entryWF] at hT
    | list l => simp [entryWF] at hT
    | dict tes =>
      simp only [entryWF, Bool.and_eq_true] at hT
      obtain ⟨⟨hR, hW⟩, hC⟩ := hT
      obtain ⟨rq, hrq⟩ := pyGetD_dict_num tes "ReadCapacityUnits" hR
      obtain ⟨wq, hwq⟩ := pyGetD_dict_num tes "WriteCapacityUnits" hW
      obtain ⟨cq, hcq⟩ := pyGetD_dict_num tes "CapacityUnits" hC
      have hget : pyGetD (.dict es) "Table" (.dict []) = .ok (.dict tes) :=
        by simp [pyGetD, hTl, pure, Except.pure]
      have hidx : pyIndex (.dict es) "Table" = .ok (.dict tes) := by
        simp [pyIndex, hTl, pure, Except.pure]
      simp only [tableFigures, hget, hrq, hwq, hidx, hcq, Bind.bind,
        Except.bind, pure, Except.pure]
      by_cases hcond : (pyIsZero (.num rq) && pyIsZero (.num wq) &&
          pyHasKey (.dict es) "Table") = true
      · rw [if_pos hcond]
        refine ⟨if rs then (cq, wq) else (rq, cq), ?_⟩
        cases rs <;>
          simp [pyAsNum, Bind.bind, Except.bind, pure, Except.pure]
      · rw [if_neg hcond]
        exact ⟨(rq, wq), by simp [pyAsNum, Bind.bind, Except.bind, pure,
          Except.pure]⟩

lemma gsiEntryStep_wf (rs : Bool) (acc : List (String × ℤ × ℤ) × ℤ × ℤ)
    (n : String) (gd : PyVal) (h : entryWF gd = true) :
    ∃ out, gsiEntryStep rs acc (n, gd) = .ok out := by
  cases gd with
  | pynull => simp [entryWF] at h
  | num q => simp [entryWF] at h
  | str s => simp [entryWF] at h
  | list l => simp [entryWF] at h
  | dict tes =>
    simp only [entryWF, Bool.and_eq_true] at h
    obtain ⟨⟨hR, hW⟩, hC⟩ := h
    obtain ⟨rq, hrq⟩ := pyGetD_dict_num tes "ReadCapacityUnits" hR
    obtain ⟨wq, hwq⟩ := pyGetD_dict_num tes "WriteCapacityUnits" hW
    obtain ⟨cq, hcq⟩ := pyGetD_dict_num tes "CapacityUnits" hC
    simp only [gsiEntryStep, hrq, hwq, hcq, Bind.bind, Except.bind, pure,
      Except.pure]
    by_cases hcond : (pyIsZero (.num rq) && pyIsZero (.num wq)) = true
    · rw [if_pos hcond]
      refine ⟨if rs then (acc.1 ++ [(n, cq, wq)], acc.2.1 + cq,
        acc.2.2 + wq) else (acc.1 ++ [(n, rq, cq)], acc.2.1 + rq,
        acc.2.2 + cq), ?_⟩
      cases rs <;>
        simp [pyAsNum, Bind.bind, Except.bind, pure, Except.pure]
    · rw [if_neg hcond]
      exact ⟨(acc.1 ++ [(n, rq, wq)], acc.2.1 + rq, acc.2.2 + wq),
        by simp [pyAsNum, Bind.bind, Except.bind, pure, Except.pure]⟩

lemma gsiFigures_wf (rs : Bool) (es : List (String × PyVal))
    (hG : (match List.lookup "GlobalSecondaryIndexes" es with
           | none => true
           | some (.dict ges) => ges.all (fun e => entryWF e.2)
           | some _ => false) = true) :
    ∃ g, gsiFigures rs (.dict es) = .ok g := by
  cases hGl : List.lookup "GlobalSecondaryIndexes" es with
  | none =>
    refine ⟨([], 0, 0), ?_⟩
    simp [gsiFigures, pyHasKey, hGl, pure, Except.pure]
  | some gv =>
    rw [hGl] at hG
    cases gv with
    | pynull => simp at hG
    | num q => simp at hG
    | str s => simp at hG
    | list l => simp at hG
    | dict ges =>
      have hall : ∀ e ∈ ges, entryWF e.2 = true := by
        intro e he
        exact List.all_eq_true.mp hG e he
      have hidx : pyIndex (.dict es) "GlobalSecondaryIndexes" =
          .ok (.dict ges) := by simp [pyIndex, hGl, pure, Except.pure]
      have hkey : pyHasKey (.dict es) "GlobalSecondaryIndexes" = true := by
        simp [pyHasKey, hGl]
      obtain ⟨g, hg⟩ := foldlM_ok (gsiEntryStep rs) ges
        (fun e he s => gsiEntryStep_wf rs s e.1 e.2 (hall e he))
        ([], (0 : ℤ), (0 : ℤ))
      refine ⟨g, ?_⟩
      rw [gsiFigures, if_pos hkey]
      rw [hidx]
      simp only [Bind.bind, Except.bind, pyItems, pure, Except.pure]
      exact hg

lemma totalsSingle_wf (rs : Bool) (es : List (String × PyVal))
    (a b gr gw : ℤ) (hC : numOk (List.lookup "CapacityUnits" es) = true) :
    ∃ xy, totalsSingle rs (.dict es) a b gr gw = .ok xy := by
  rcases numOk_cases hC with h | ⟨q, h⟩
  · refine ⟨(a + gr, b + gw), ?_⟩
    simp [totalsSingle, pyHasKey, h, pure, Except.pure]
  · have hkey : pyHasKey (.dict es) "CapacityUnits" = true := by
      simp [pyHasKey, h]
    have hget : pyGetD (.dict es) "CapacityUnits" (.num 0) =
        .ok (.num q) := by simp [pyGetD, h, pure, Except.pure]
    refine ⟨(if rs then (q, 0) else (0, q)), ?_⟩
    simp [totalsSingle, hkey, hget, pyAsNum, Bind.bind, Except.bind, pure,
      Except.pure]

lemma joinItemGsiStep_wf (rs : Bool) (iw : ℤ × ℤ) (n : String) (gd : PyVal)
    (h : entryWF gd = true) :
    ∃ out, joinItemGsiStep rs iw (n, gd) = .ok out := by
  cases gd with
  | pynull => simp [entryWF] at h
  | num q => simp [entryWF] at h
  | str s => simp [entryWF] at h
  | list l => simp [entryWF] at h
  | dict tes =>
    simp only [entryWF, Bool.and_eq_true] at h
    obtain ⟨⟨hR, hW⟩, hC⟩ := h
    obtain ⟨rq, hrq⟩ := pyGetD_dict_num tes "ReadCapacityUnits" hR
    obtain ⟨wq, hwq⟩ := pyGetD_dict_num tes "WriteCapacityUnits" hW
    obtain ⟨cq, hcq⟩ := pyGetD_dict_num tes "CapacityUnits" hC
    cases rs with
    | true =>
      by_cases htr : pyTruthy (.num rq) = true
      · exact ⟨(iw.1 + rq, iw.2 + 0), by simp [joinItemGsiStep, hrq, htr,
          pyAsNum, Bind.bind, Except.bind, pure, Except.pure]⟩
      · exact ⟨(iw.1 + cq, iw.2 + 0), by simp [joinItemGsiStep, hrq, hcq,
          htr, pyAsNum, Bind.bind, Except.bind, pure, Except.pure]⟩
    | false =>
      by_cases htw : pyTruthy (.num wq) = true
      · exact ⟨(iw.1 + 0, iw.2 + wq), by simp [joinItemGsiStep, hwq, htw,
          pyAsNum, Bind.bind, Except.bind, pure, Except.pure]⟩
      · exact ⟨(iw.1 + 0, iw.2 + cq), by simp [joinItemGsiStep, hwq, hcq,
          htw, pyAsNum, Bind.bind, Except.bind, pure, Except.pure]⟩

lemma totalsJoinListItem_wf (rs : Bool) (es : List (String × PyVal))
    (a b : ℤ) (hC : numOk (List.lookup "CapacityUnits" es) = true)
    (hG : (match List.lookup "GlobalSecondaryIndexes" es with
           | none => true
           | some (.dict ges) => ges.all (fun e => entryWF e.2)
           | some _ => false) = true) :
    ∃ xy, totalsJoinListItem rs (.dict es) a b = .ok xy := by
  rcases numOk_cases hC with h | ⟨q, h⟩
  · cases hGl : List.lookup "GlobalSecondaryIndexes" es with
    | none =>
      refine ⟨(a, b), ?_⟩
      simp [totalsJoinListItem, pyHasKey, h, hGl, pure, Except.pure]
    | some gv =>
      rw [hGl] at hG
      cases gv with
      | pynull => simp at hG
      | num q2 => simp at hG
      | str s => simp at hG
      | list l => simp at hG
      | dict ges =>
        have hall : ∀ e ∈ ges, entryWF e.2 = true := by
          intro e he
          exact List.all_eq_true.mp hG e he
        have hidx : pyIndex (.dict es) "GlobalSecondaryIndexes" =
            .ok (.dict ges) := by simp [pyIndex, hGl, pure, Except.pure]
        obtain ⟨g, hg⟩ := foldlM_ok (joinItemGsiStep rs) ges
          (fun e he s => joinItemGsiStep_wf rs s e.1 e.2 (hall e he)) (a, b)
        refine ⟨g, ?_⟩
        simp [totalsJoinListItem, pyHasKey, h, hGl, hidx, pyItems, hg,
          Bind.bind, Except.bind, pure, Except.pure]
  · have hkey : pyHasKey (.dict es) "CapacityUnits" = true := by
      simp [pyHasKey, h]
    have hget : pyGetD (.dict es) "CapacityUnits" (.num 0) =
        .ok (.num q) := by simp [pyGetD, h, pure, Except.pure]
    refine ⟨(if rs then (q, 0) else (0, q)), ?_⟩
    simp [totalsJoinListItem, hkey, hget, pyAsNum, Bind.bind, Except.bind,
      pure, Except.pure]

lemma reportWF_parts {es : List (String × PyVal)}
    (h : reportWF (.dict es) = true) :
    (match List.lookup "Table" es with
     | none => true
     | some tv => entryWF tv) = true ∧
    (match List.lookup "GlobalSecondaryIndexes" es with
     | none => true
     | some (.dict ges) => ges.all (fun e => entryWF e.2)
     | some _ => false) = true ∧
    numOk (List.lookup "CapacityUnits" es) = true := by
  simp only [reportWF, Bool.and_eq_true] at h
  exact ⟨h.1.1, h.1.2, h.2⟩

lemma normSingle_wf (rs : Bool) (es : List (String × PyVal))
    (h : reportWF (.dict es) = true) :
    ∃ c, normSingle rs (.dict es) = .ok c := by
  obtain ⟨hT, hG, hC⟩ := reportWF_parts h
  obtain ⟨ab, hab⟩ := tableFigures_wf rs es hT
  obtain ⟨g, hg⟩ := gsiFigures_wf rs es hG
  obtain ⟨xy, hxy⟩ := totalsSingle_wf rs es ab.1 ab.2 g.2.1 g.2.2 hC
  refine ⟨Contrib.mk ab.1 ab.2 g.1 xy.1 xy.2, ?_⟩
  simp [normSingle, hab, hg, hxy, Bind.bind, Except.bind, pure,
    Except.pure]

lemma normJoinListItem_wf (rs : Bool) (es : List (String × PyVal))
    (h : reportWF (.dict es) = true) :
    ∃ c, normJoinListItem rs (.dict es) = .ok c := by
  obtain ⟨hT, hG, hC⟩ := reportWF_parts h
  obtain ⟨ab, hab⟩ := tableFigures_wf rs es hT
  obtain ⟨g, hg⟩ := gsiFigures_wf rs es hG
  obtain ⟨xy, hxy⟩ := totalsJoinListItem_wf rs es ab.1 ab.2 hC hG
  refine ⟨Contrib.mk ab.1 ab.2 g.1 xy.1 xy.2, ?_⟩
  simp [normJoinListItem, hab, hg, hxy, Bind.bind, Except.bind, pure,
    Except.pure]

lemma add_join_ok_ops {op : String} {v : PyVal} {t t1 : ResourceTracker}
    (h : add_consumption_join op v t = .ok t1) :
    t1.operations = t.operations ++ [op] := by
  cases v with
  | pynull =>
    simp only [add_consumption_join] at h
    cases h
    rfl
  | num q =>
    simp only [add_consumption_join] at h
    cases h
    rfl
  | str s =>
    simp only [add_consumption_join] at h
    cases h
    rfl
  | dict es =>
    simp only [add_consumption_join] at h
    obtain ⟨c, _, h2⟩ := except_bind_ok h
    cases h2
    rfl
  | list l =>
    simp only [add_consumption_join] at h
    obtain ⟨c, _, h2⟩ := except_bind_ok h
    cases h2
    rfl

lemma add_query_ok_ops {op : String} {v : PyVal} {t t2 : ResourceTracker}
    (h : add_consumption_query op v t = .ok t2) :
    t2.operations = t.operations ++ [op] := by
  cases v with
  | pynull =>
    simp only [add_consumption_query] at h
    cases h
    rfl
  | num q =>
    simp only [add_consumption_query] at h
    cases h
    rfl
  | str s =>
    simp only [add_consumption_query] at h
    cases h
    rfl
  | dict es =>
    simp only [add_consumption_query] at h
    obtain ⟨c, _, h2⟩ := except_bind_ok h
    cases h2
    rfl
  | list l =>
    simp only [add_consumption_query] at h
    obtain ⟨c, _, h2⟩ := except_bind_ok h
    cases h2
    rfl

lemma add_join_wf (op : String) (v : PyVal) (t : ResourceTracker)
    (h : consumedWF v = true) :
    ∃ t1, add_consumption_join op v t = .ok t1 := by
  cases v with
  | pynull => exact ⟨_, rfl⟩
  | num q => exact ⟨_, rfl⟩
  | str s => exact ⟨_, rfl⟩
  | dict es =>
    obtain ⟨c, hc⟩ := normSingle_wf (is_read_op_join op) es
      (by simpa [consumedWF] using h)
    exact ⟨_, add_join_norm (v := .dict es) t rfl hc⟩
  | list items =>
    have hall : ∀ it ∈ items, ∀ a : ConsumptionAcc,
        ∃ a1, joinListStep (is_read_op_join op) a it = .ok a1 := by
      intro it hit a
      cases it with
      | dict ies =>
        have hWF : reportWF (.dict ies) = true := by
          simp only [consumedWF] at h
          have := List.all_eq_true.mp h _ hit
          simpa [PyVal.isDict] using this
        obtain ⟨c, hc⟩ := normJoinListItem_wf (is_read_op_join op) ies hWF
        exact ⟨applyContrib c a, by simp [joinListStep, PyVal.isDict, hc,
          Bind.bind, Except.bind, pure, Except.pure]⟩
      | pynull => exact ⟨a, by simp [joinListStep, PyVal.isDict, pure,
          Except.pure]⟩
      | num q => exact ⟨a, by simp [joinListStep, PyVal.isDict, pure,
          Except.pure]⟩
      | str s => exact ⟨a, by simp [joinListStep, PyVal.isDict, pure,
          Except.pure]⟩
      | list l => exact ⟨a, by simp [joinListStep, PyVal.isDict, pure,
          Except.pure]⟩
    obtain ⟨a1, ha1⟩ := foldlM_ok (joinListStep (is_read_op_join op))
      items hall t.acc
    exact ⟨appendOp { t with acc := a1 } op, by
      simp [add_consumption_join, ha1, Bind.bind, Except.bind, pure,
        Except.pure]⟩

lemma add_query_wf (op : String) (v : PyVal) (t : ResourceTracker)
    (h : consumedWF v = true) :
    ∃ t2, add_consumption_query op v t = .ok t2 := by
  cases v with
  | pynull => exact ⟨_, rfl⟩
  | num q => exact ⟨_, rfl⟩
  | str s => exact ⟨_, rfl⟩
  | dict es =>
    obtain ⟨c, hc⟩ := normSingle_wf (is_read_op_query op) es
      (by simpa [consumedWF] using h)
    exact ⟨_, add_query_norm (v := .dict es) t rfl hc⟩
  | list items =>
    have hall : ∀ it ∈ items, ∀ a : ConsumptionAcc,
        ∃ a1, queryListStep (is_read_op_query op) a it = .ok a1 := by
      intro it hit a
      cases it with
      | dict ies =>
        have hWF : reportWF (.dict ies) = true := by
          simp only [consumedWF] at h
          have := List.all_eq_true.mp h _ hit
          simpa [PyVal.isDict] using this
        obtain ⟨c, hc⟩ := normSingle_wf (is_read_op_query op) ies hWF
        exact ⟨applyContrib c a, by simp [queryListStep, PyVal.isDict, hc,
          Bind.bind, Except.bind, pure, Except.pure]⟩
      | pynull => exact ⟨a, by simp [queryListStep, PyVal.isDict, pure,
          Except.pure]⟩
      | num q => exact ⟨a, by simp [queryListStep, PyVal.isDict, pure,
          Except.pure]⟩
      | str s => exact ⟨a, by simp [queryListStep, PyVal.isDict, pure,
          Except.pure]⟩
      | list l => exact ⟨a, by simp [queryListStep, PyVal.isDict, pure,
          Except.pure]⟩
    obtain ⟨a1, ha1⟩ := foldlM_ok (queryListStep (is_read_op_query op))
      items hall t.acc
    exact ⟨appendOp { t with acc := a1 } op, by
      simp [add_consumption_query, ha1, Bind.bind, Except.bind, pure,
        Except.pure]⟩

/-- C3 amended: normalization completes without raising and still records
the operation name for every structurally well-formed consumption value -
absent, a single mapping whose Table entry (when present) is a mapping with
numeric capacity fields, whose GlobalSecondaryIndexes entry (when present)
is a mapping of such mappings, and whose top-level CapacityUnits field (when
present) is numeric, or a list whose mapping items are such reports - and a
fully empty report contributes zero to every accumulator; but a malformed
report (a non-mapping Table or index entry, or a non-numeric capacity field)
raises and records nothing. -/
theorem C3_normalization_wellformed_total (op : String) (v : PyVal)
    (t : ResourceTracker) (hwf : consumedWF v = true) :
    (∃ t1, add_consumption_join op v t = .ok t1 ∧
      t1.operations = t.operations ++ [op]) ∧
    (∃ t2, add_consumption_query op v t = .ok t2 ∧
      t2.operations = t.operations ++ [op]) ∧
    add_consumption_join op (.dict []) t = .ok (appendOp t op) ∧
    add_consumption_query op (.dict []) t = .ok (appendOp t op) ∧
    add_consumption_join op .pynull t = .ok (appendOp t op) := by
  obtain ⟨t1, ht1⟩ := add_join_wf op v t hwf
  obtain ⟨t2, ht2⟩ := add_query_wf op v t hwf
  have hz : normSingle (is_read_op_join op) (.dict []) =
      .ok (Contrib.mk 0 0 [] 0 0) := rfl
  have hzq : normSingle (is_read_op_query op) (.dict []) =
      .ok (Contrib.mk 0 0 [] 0 0) := rfl
  refine ⟨⟨t1, ht1, add_join_ok_ops ht1⟩, ⟨t2, ht2, add_query_ok_ops ht2⟩,
    ?_, ?_, rfl⟩
  · rw [add_join_norm (v := .dict []) t rfl hz]
    simp [applyContrib_zero]
  · rw [add_query_norm (v := .dict []) t rfl hzq]
    simp [applyContrib_zero]

/-- Witness for C3 at a concrete well-formed report. -/
theorem C3_normalization_wellformed_total_witness :
    ∃ t1, add_consumption_join "query_x" gsiRW23 reset_tracker = .ok t1 ∧
      t1.operations = reset_tracker.operations ++ ["query_x"] :=
  (C3_normalization_wellformed_total "query_x" gsiRW23 reset_tracker
    (by decide)).1
